import Mathlib

/-!
# Vault: GitHub credential backend and RabbitMQ connection configuration

A shallow embedding of

* `builtin/logical/rabbitmq/path_config_connection.go` (the update handler of
  `config/connection`), and
* `builtin/credential/github/backend_test.go` (the check closure built by
  `testLoginWrite`),

together with the parts of the GitHub credential backend (configuration
store, team-policy mapping store, login, lease negotiation) that the design
document describes.
-/

namespace Vault

/-! ## Package `logical`: responses, storage -/

/-- A `time.Duration`: a signed count of nanoseconds. -/
abbrev Duration := Int

/-- One hour, in nanoseconds (`time.Hour`). -/
def Hour : Duration := 3600 * 1000000000

/-- One second, in nanoseconds (`time.Second`). -/
def Second : Duration := 1000000000

/-- The lease part of an authentication result (`logical.LeaseOptions`). -/
structure LeaseOptions where
  TTL : Duration
  Renewable : Bool
deriving DecidableEq, Repr

/-- The authentication part of a response (`logical.Auth`). -/
structure Auth where
  LeaseOptions : LeaseOptions
  Policies : List String
deriving DecidableEq, Repr

/-- Modelled from the spec: the host framework's structured result
(`logical.Response`, whose package is not among the sources). A response
carries a data map and, for a login, the authentication result. -/
structure Response where
  Data : List (String × String)
  Auth : Option Auth
deriving DecidableEq, Repr

/-- Modelled from the spec: `logical.ErrorResponse(text)`, the structured
"caller input error" result: a response whose data map is exactly
`error -> text`. -/
def ErrorResponse (text : String) : Response :=
  { Data := [("error", text)], Auth := none }

/-- Modelled from the spec: `(*logical.Response).IsError()`. A nil response is
not an error; otherwise the response is an error when its data map has the
single key `error`. -/
def IsError : Option Response → Bool
  | none => false
  | some r => r.Data.length == 1 && (r.Data.lookup "error").isSome

/-- The error text of a response, when it has one. -/
def errorText : Option Response → Option String
  | none => none
  | some r => r.Data.lookup "error"

/-- A flat JSON object whose members are strings: the shape to which a Go
struct of string fields is marshalled, member names taken from the `json`
tags. -/
abbrev JSONObject := List (String × String)

/-- A storage entry (`logical.StorageEntry`): a key and its JSON value. -/
structure StorageEntry where
  Key : String
  Value : JSONObject
deriving DecidableEq, Repr

/-- Modelled from the spec: the host storage, a key/value store with
`put(key, json)` and `get(key)`. `entries` are the stored entries, at most the
first one of each key being visible; `putErr`, when set, is the error with
which the physical backend refuses a write. -/
structure Storage where
  entries : List StorageEntry
  putErr : Option String
deriving DecidableEq, Repr

/-- Modelled from the spec: `Storage.Put(entry)`. Fails, leaving the contents
as they are, when the backend refuses the write; otherwise the entry replaces
whatever was stored under its key. -/
def Storage.Put (s : Storage) (e : StorageEntry) : Except String Storage :=
  match s.putErr with
  | some err => .error err
  | none => .ok { s with entries := e :: s.entries.filter (fun x => x.Key != e.Key) }

/-- Modelled from the spec: `Storage.Get(key)`, the entry stored under `key`,
if any. -/
def Storage.Get (s : Storage) (k : String) : Option StorageEntry :=
  s.entries.find? (fun x => x.Key == k)

/-- A request (`logical.Request`), reduced to the storage view it carries. -/
structure Request where
  Storage : Storage
deriving DecidableEq, Repr

/-! ## Package `rabbitmq`: `path_config_connection.go` -/

namespace rabbitmq

/-- The stored connection configuration (`type connectionConfig struct`). -/
structure connectionConfig where
  URI : String
  VerifyURI : String
  Username : String
  Password : String
deriving DecidableEq, Repr

/-- JSON encoding of a `connectionConfig`, following the struct's `json`
tags, in field order. -/
def connectionConfig.toJSON (c : connectionConfig) : JSONObject :=
  [("connection_uri", c.URI), ("verify_connection", c.VerifyURI),
   ("username", c.Username), ("password", c.Password)]

/-- JSON decoding into a `connectionConfig`: each field is read from the
member named by its tag, a missing member leaving the zero value. -/
def connectionConfig.fromJSON (o : JSONObject) : connectionConfig :=
  { URI := (o.lookup "connection_uri").getD "",
    VerifyURI := (o.lookup "verify_connection").getD "",
    Username := (o.lookup "username").getD "",
    Password := (o.lookup "password").getD "" }

/-- Modelled from the spec: `logical.StorageEntryJSON(key, value)`, the host's
JSON encoding of a value into a storage entry. Marshalling a struct of string
fields has no failing case, so the result is always an entry. -/
def StorageEntryJSON (k : String) (v : connectionConfig) : Except String StorageEntry :=
  .ok { Key := k, Value := v.toJSON }

/-- A RabbitMQ management client (`rabbithole.Client`). -/
structure Client where
  Endpoint : String
  Username : String
  Password : String
deriving DecidableEq, Repr

/-- The RabbitMQ management API as seen from the handler: what
`rabbithole.NewClient` returns for given arguments and what `ListUsers`
answers for a client. Both are external; each may fail with an error text. -/
structure RabbitHole where
  NewClient : String → String → String → Except String Client
  ListUsers : Client → Except String (List String)

/-- The calls the handler makes on its collaborators, in order. -/
inductive Call where
  | NewClient (uri username password : String)
  | ListUsers (c : Client)
  | Put (e : StorageEntry)
  | ResetClient
deriving DecidableEq, Repr

/-- The backend's mutable state: the cached management client. -/
structure backend where
  client : Option Client
deriving DecidableEq, Repr

/-- The method `ResetClient` of the backend: drops the cached client. -/
def backend.ResetClient (_b : backend) : backend :=
  { client := none }

/-- The request fields of `config/connection` as supplied by the caller; a
field that the request does not carry is `none`. -/
structure FieldData where
  connection_uri : Option String
  username : Option String
  password : Option String
  verify_connection : Option Bool
deriving DecidableEq, Repr

/-- The expression `data.Get(name).(string)` for the three `TypeString` fields
of `pathConfigConnection`, which declare no default: an absent field reads
as the empty string. -/
def FieldData.GetString (d : FieldData) (name : String) : String :=
  if name = "connection_uri" then d.connection_uri.getD ""
  else if name = "username" then d.username.getD ""
  else if name = "password" then d.password.getD ""
  else ""

/-- The expression `data.Get("verify_connection").(bool)`: the field is
declared `TypeBool` with `Default: true`. -/
def FieldData.GetVerifyConnection (d : FieldData) : Bool :=
  d.verify_connection.getD true

/-- What one run of the handler leaves behind: the returned pair
`(*logical.Response, error)`, the storage and backend state afterwards, and
the calls made on the collaborators. -/
structure Outcome where
  resp : Option Response
  err : Option String
  storage : Storage
  backend : backend
  calls : List Call
deriving DecidableEq, Repr

/-- The method `pathConnectionUpdate` of the backend. -/
def pathConnectionUpdate (api : RabbitHole) (b : backend) (req : Request)
    (data : FieldData) : Outcome :=
  let uri := data.GetString "connection_uri"
  let username := data.GetString "username"
  let password := data.GetString "password"
  if uri = "" then
    ⟨some (ErrorResponse "'connection_uri' is a required parameter."), none,
      req.Storage, b, []⟩
  else if username = "" then
    ⟨some (ErrorResponse "'username' is a required parameter."), none,
      req.Storage, b, []⟩
  else if password = "" then
    ⟨some (ErrorResponse "'password' is a required parameter."), none,
      req.Storage, b, []⟩
  else
    -- Don't check the connection_url if verification is disabled
    let verifyConnection := data.GetVerifyConnection
    -- the verification block: its calls, and the response it returns early
    let verified : List Call × Option Response :=
      if verifyConnection then
        -- Create RabbitMQ management client
        match api.NewClient uri username password with
        | .error err =>
          ([Call.NewClient uri username password],
            some (ErrorResponse ("Error  info: " ++ err)))
        | .ok client =>
          -- Verify provided user is able to list users
          match api.ListUsers client with
          | .error err =>
            ([Call.NewClient uri username password, Call.ListUsers client],
              some (ErrorResponse
                ("Error validating connection info by listing users: " ++ err)))
          | .ok _ =>
            ([Call.NewClient uri username password, Call.ListUsers client], none)
      else ([], none)
    match verified with
    | (calls, some r) => ⟨some r, none, req.Storage, b, calls⟩
    | (calls, none) =>
      -- Store it
      match StorageEntryJSON "config/connection"
          { URI := uri, VerifyURI := "", Username := username, Password := password } with
      | .error err => ⟨none, some err, req.Storage, b, calls⟩
      | .ok entry =>
        match req.Storage.Put entry with
        | .error err => ⟨none, some err, req.Storage, b, calls ++ [Call.Put entry]⟩
        | .ok storage =>
          -- Reset the client connection
          ⟨none, none, storage, b.ResetClient, calls ++ [Call.Put entry, Call.ResetClient]⟩

end rabbitmq

/-! ## Package `github`: `backend_test.go` -/

namespace github

/-- What a `Check` closure of a test step does with a response: it returns
`nil`, returns an error, or dereferences a nil pointer. -/
inductive CheckResult where
  | nil
  | error (msg : String)
  | panic
deriving DecidableEq, Repr

/-- A step of an acceptance test (`logicaltest.TestStep`), with the fields the
test file sets. -/
structure TestStep where
  Operation : String
  Path : String
  ErrorOk : Bool
  Unauthenticated : Bool
  Data : List (String × String)
  Check : Option (Option Response → CheckResult)

/-- The closure assigned to `Check` in `testLoginWrite`. -/
def testLoginWriteCheck (expectedTTL : Int) (expectFail : Bool)
    (resp : Option Response) : CheckResult :=
  if IsError resp && expectFail then
    CheckResult.nil
  else
    -- resp.Auth.LeaseOptions.TTL: resp and resp.Auth are pointers
    match resp with
    | none => CheckResult.panic
    | some r =>
      match r.Auth with
      | none => CheckResult.panic
      | some auth =>
        let actualTTL : Int := auth.LeaseOptions.TTL
        if actualTTL != expectedTTL then
          CheckResult.error ("TTL mismatched. Expected: " ++ toString expectedTTL
            ++ " Actual: " ++ toString auth.LeaseOptions.TTL)
        else
          CheckResult.nil

/-- The test helper `testLoginWrite`. -/
def testLoginWrite (d : List (String × String)) (expectedTTL : Int) (expectFail : Bool) :
    TestStep :=
  { Operation := "update",
    Path := "login",
    ErrorOk := true,
    Unauthenticated := false,
    Data := d,
    Check := some (testLoginWriteCheck expectedTTL expectFail) }

/-- The test helper `testConfigWrite`. -/
def testConfigWrite (d : List (String × String)) : TestStep :=
  { Operation := "update",
    Path := "config",
    ErrorOk := false,
    Unauthenticated := false,
    Data := d,
    Check := none }

/-- The test helper `testAccMap`. -/
def testAccMap (k v : String) : TestStep :=
  { Operation := "update",
    Path := "map/teams/" ++ k,
    ErrorOk := false,
    Unauthenticated := false,
    Data := [("value", v)],
    Check := none }

/-! ### The backend, as the design document describes it -/

/-- The error taxonomy of the design document. -/
inductive ErrorKind where
  | ValidationError
  | ConfigurationError
  | UpstreamError
  | PermissionDenied
deriving DecidableEq, Repr

/-- A structured failure: its kind and its message. -/
structure Error where
  kind : ErrorKind
  message : String
deriving DecidableEq, Repr

/-- Modelled from the spec: the host lease system, which supplies the
system-wide default and maximum lease TTL at initialisation
(`logical.StaticSystemView` in the test file). -/
structure SystemView where
  DefaultLeaseTTLVal : Duration
  MaxLeaseTTLVal : Duration
deriving DecidableEq, Repr

/-- Modelled from the spec: the `Configuration` singleton of the data model. -/
structure Configuration where
  organization : String
  baseURL : Option String
  defaultTTL : Duration
  maxTTL : Duration
deriving DecidableEq, Repr

/-- Modelled from the spec: the configuration store, holding the single active
configuration, or nothing before the first successful write. -/
abbrev ConfigStore := Option Configuration

/-- The value in nanoseconds of a unit suffix of `time.ParseDuration`. -/
def unitValue (u : List Char) : Option Int :=
  if u = ['n', 's'] then some 1
  else if u = ['u', 's'] then some 1000
  else if u = ['µ', 's'] then some 1000
  else if u = ['m', 's'] then some 1000000
  else if u = ['s'] then some 1000000000
  else if u = ['m'] then some 60000000000
  else if u = ['h'] then some 3600000000000
  else none

/-- Scanner for a sequence of `<decimal integer><unit>` groups: `total` is the
value of the groups read so far, `num` the number of the current group and
`unit` the unit characters read after it. -/
def scanDuration : List Char → Int → Option Int → List Char → Option Int
  | [], total, num, unit =>
    match num with
    | none => none
    | some n => (unitValue unit).map (fun v => total + n * v)
  | c :: cs, total, num, unit =>
    if c.isDigit then
      let d : Int := (c.toNat - 48 : Nat)
      match num, unit with
      | none, _ => scanDuration cs total (some d) []
      | some n, [] => scanDuration cs total (some (n * 10 + d)) []
      | some n, u :: us =>
        match unitValue (u :: us) with
        | none => none
        | some v => scanDuration cs (total + n * v) (some d) []
    else
      match num with
      | none => none
      | some n => scanDuration cs total (some n) (unit ++ [c])

/-- The integer fragment of Go's `time.ParseDuration`: an optional sign, then
either `0` or a sequence of decimal integers each followed by a unit
(`ns`, `us`, `ms`, `s`, `m`, `h`). Durations with a fractional part are outside
the fragment. -/
def ParseDuration (s : String) : Option Duration :=
  let body (cs : List Char) : Option Duration :=
    if cs = ['0'] then some 0 else scanDuration cs 0 none []
  match s.data with
  | '-' :: cs => (body cs).map (fun d => - d)
  | '+' :: cs => body cs
  | cs => body cs

/-- Modelled from the spec: resolution of a `ttl` or `max_ttl` argument of
`WriteConfig`. A value supplied as a non-empty string must parse as a
duration; an unsupplied (absent or empty) one defaults to the given
system-wide value. -/
def resolveTTL (parse : String → Option Duration) (field : String)
    (raw : Option String) (systemValue : Duration) : Except Error Duration :=
  match raw with
  | none => .ok systemValue
  | some s =>
    if s = "" then .ok systemValue
    else
      match parse s with
      | none => .error ⟨ErrorKind.ValidationError, "invalid " ++ field⟩
      | some d => .ok d

/-- Modelled from the spec: the `defaultTTL` persisted for the `ttl` argument
of `WriteConfig`. A supplied `ttl` is persisted with its value; an unsupplied
(absent or empty) one is persisted as zero, the zero/unset value for which the
Lease Negotiator returns the host's system-wide default at login. -/
def persistedTTL (raw : Option String) (resolved : Duration) : Duration :=
  match raw with
  | none => 0
  | some s => if s = "" then 0 else resolved

/-- Modelled from the spec: `WriteConfig(organization, baseURL?, ttl?, maxTTL?)`
of the configuration store (the backend's `config` path, absent from the
sources). `organization` is required; `ttl` and `maxTTL` are resolved as in
`resolveTTL`; the write fails with `ValidationError` if the resolved `ttl` or
`maxTTL` exceeds the host's system-wide maximum; on success the configuration
replaces any prior value, holding the `ttl` as `persistedTTL` gives it and the
resolved `maxTTL`. -/
def WriteConfig (parse : String → Option Duration) (sys : SystemView)
    (_store : ConfigStore) (organization : String) (baseURL : Option String)
    (ttl maxTTL : Option String) : Except Error ConfigStore :=
  if organization = "" then
    .error ⟨ErrorKind.ValidationError, "organization is required"⟩
  else
    match resolveTTL parse "ttl" ttl sys.DefaultLeaseTTLVal with
    | .error e => .error e
    | .ok t =>
      match resolveTTL parse "max_ttl" maxTTL sys.MaxLeaseTTLVal with
      | .error e => .error e
      | .ok m =>
        if t > sys.MaxLeaseTTLVal then
          .error ⟨ErrorKind.ValidationError, "ttl exceeds the system-wide maximum lease TTL"⟩
        else if m > sys.MaxLeaseTTLVal then
          .error ⟨ErrorKind.ValidationError, "max_ttl exceeds the system-wide maximum lease TTL"⟩
        else
          .ok (some { organization := organization, baseURL := baseURL,
                      defaultTTL := persistedTTL ttl t, maxTTL := m })

/-- Modelled from the spec: `ReadConfig()`, which is `NotConfigured` (`none`)
if no write has occurred. -/
def ReadConfig (store : ConfigStore) : Option Configuration :=
  store

/-- Modelled from the spec: the Lease Negotiator, `Negotiate(Configuration)`.
When `defaultTTL` is zero/unset it returns the host's system-wide default
lease TTL; otherwise it returns `defaultTTL`, which is never permitted to
exceed `maxTTL`. -/
def Negotiate (sys : SystemView) (c : Configuration) : Duration :=
  if c.defaultTTL = 0 then sys.DefaultLeaseTTLVal
  else if c.defaultTTL > c.maxTTL then c.maxTTL
  else c.defaultTTL

/-- A fragment of Go's `unicode.ToLower`, the lower-case mapping of a
character: the upper-case letters of ASCII, of Latin-1, of the basic Greek
alphabet and of the basic Cyrillic alphabet go to their lower-case forms, and
every other character is left as it is. -/
def toLowerRune (c : Char) : Char :=
  let n := c.toNat
  if 65 ≤ n ∧ n ≤ 90 then Char.ofNat (n + 32)
  else if 192 ≤ n ∧ n ≤ 214 then Char.ofNat (n + 32)
  else if 216 ≤ n ∧ n ≤ 222 then Char.ofNat (n + 32)
  else if 913 ≤ n ∧ n ≤ 929 then Char.ofNat (n + 32)
  else if 931 ≤ n ∧ n ≤ 939 then Char.ofNat (n + 32)
  else if 1024 ≤ n ∧ n ≤ 1039 then Char.ofNat (n + 80)
  else if 1040 ≤ n ∧ n ≤ 1071 then Char.ofNat (n + 32)
  else c

/-- Modelled from the spec: normalisation of a team name to its
case-insensitive key, the name in lower case. `lower` is the lower-case
mapping of characters, applied to every character of the name. -/
def lowerName (lower : Char → Char) (s : String) : String :=
  String.mk (s.data.map lower)

/-- Splits a list of characters at every comma and every space. -/
def splitFields : List Char → List (List Char)
  | [] => [[]]
  | c :: cs =>
    if c = ',' ∨ c = ' ' then [] :: splitFields cs
    else
      match splitFields cs with
      | [] => [[c]]
      | w :: ws => (c :: w) :: ws

/-- Adds a policy name to a policy set unless it is there already. -/
def addPolicy (acc : List String) (p : String) : List String :=
  if p ∈ acc then acc else acc ++ [p]

/-- Modelled from the spec: the policy set denoted by a comma-or-space-separated
list of names. -/
def parsePolicies (s : String) : List String :=
  (((splitFields s.data).filter (fun w => !w.isEmpty)).map String.mk).foldl addPolicy []

/-- Modelled from the spec: the team-policy mapping store, one entry per
normalised team name. -/
abbrev MappingStore := List (String × List String)

/-- Modelled from the spec: `WriteMapping(teamName, policies)` (the backend's
`map/teams/<team_name>` path, absent from the sources). Normalises the team
name to its key; fails with `ValidationError` if `policies` is empty. -/
def WriteMapping (lower : Char → Char) (store : MappingStore)
    (teamName policies : String) : Except Error MappingStore :=
  let ps := parsePolicies policies
  if ps = [] then
    .error ⟨ErrorKind.ValidationError, "policies must not be empty"⟩
  else
    .ok ((lowerName lower teamName, ps) ::
      store.filter (fun e => e.1 != lowerName lower teamName))

/-- Modelled from the spec: `ReadMapping(teamName)`; the lookup is
case-insensitive. -/
def ReadMapping (lower : Char → Char) (store : MappingStore) (teamName : String) :
    Option (List String) :=
  store.lookup (lowerName lower teamName)

/-- Modelled from the spec: `DeleteMapping(teamName)`, idempotent. -/
def DeleteMapping (lower : Char → Char) (store : MappingStore) (teamName : String) :
    MappingStore :=
  store.filter (fun e => e.1 != lowerName lower teamName)

/-- Modelled from the spec: the Identity Provider Client, an external
collaborator; each call may fail with an upstream error text. -/
structure IdentityProvider where
  resolveIdentity : String → Option String → Except String String
  listOrganizations : String → Except String (List String)
  listTeams : String → String → Except String (List String)

/-- Modelled from the spec: the request-scoped `AuthenticationResult`. -/
structure AuthenticationResult where
  identity : String
  policies : List String
  ttl : Duration
deriving DecidableEq, Repr

/-- The `ttl_seconds` of a login result. -/
def AuthenticationResult.ttl_seconds (r : AuthenticationResult) : Int :=
  r.ttl / Second

/-- Modelled from the spec: step 5 of `Login`. For each team name plus the
literal `default` key, look up the mapping; union all found policy sets,
de-duplicating by name. -/
def resolvePolicies (lower : Char → Char) (maps : MappingStore) (teams : List String) :
    List String :=
  ((teams ++ ["default"]).map
    (fun t => (ReadMapping lower maps t).getD [])).flatten.foldl addPolicy []

/-- Modelled from the spec: `Login(token)` of the Authentication Engine (the
backend's `login` path, absent from the sources), steps 1 to 8. -/
def Login (sys : SystemView) (idp : IdentityProvider) (lower : Char → Char)
    (store : ConfigStore) (maps : MappingStore) (token : String) :
    Except Error AuthenticationResult :=
  match ReadConfig store with
  | none => .error ⟨ErrorKind.ConfigurationError, "backend not configured"⟩
  | some config =>
    match idp.resolveIdentity token config.baseURL with
    | .error e => .error ⟨ErrorKind.UpstreamError, e⟩
    | .ok identity =>
      match idp.listOrganizations token with
      | .error e => .error ⟨ErrorKind.UpstreamError, e⟩
      | .ok orgs =>
        if config.organization ∉ orgs then
          .error ⟨ErrorKind.PermissionDenied, "user is not in required org"⟩
        else
          match idp.listTeams token config.organization with
          | .error e => .error ⟨ErrorKind.UpstreamError, e⟩
          | .ok teams =>
            let policies := resolvePolicies lower maps teams
            if policies = [] then
              .error ⟨ErrorKind.PermissionDenied,
                "user is not in any team mapped to this application and no default policy is set"⟩
            else
              .ok { identity := identity, policies := policies,
                    ttl := Negotiate sys config }

/-- Two characters that are the same up to letter case: they have the same
lower-case form under the lower-case mapping `lower`. -/
def sameLetter (lower : Char → Char) (a b : Char) : Prop :=
  lower a = lower b

/-- Two names that differ at most in letter case: they have the same length
and at every position their characters are the same up to letter case. -/
def differsOnlyInCase (lower : Char → Char) (s t : String) : Prop :=
  List.Forall₂ (sameLetter lower) s.data t.data

/-- The host of `TestBackend_Config`: default lease TTL 24 hours, maximum
lease TTL 48 hours. -/
def testSystemView : SystemView :=
  { DefaultLeaseTTLVal := 24 * Hour, MaxLeaseTTLVal := 24 * 2 * Hour }

/-- An identity provider for which every token resolves to `alice`, a member
of the organisation `acme` and of its team `owners`. -/
def sampleProvider : IdentityProvider :=
  { resolveIdentity := fun _ _ => .ok "alice",
    listOrganizations := fun _ => .ok ["acme"],
    listTeams := fun _ _ => .ok ["owners"] }

end github

/-! ## Theorems: RabbitMQ connection update -/

namespace rabbitmq

/-- The entry under which the handler stores the configuration of a request. -/
theorem StorageEntryJSON_ok (k : String) (v : connectionConfig) :
    StorageEntryJSON k v = .ok { Key := k, Value := v.toJSON } := rfl

/-- Decoding the JSON encoding of a configuration gives the configuration
back. -/
theorem fromJSON_toJSON (c : connectionConfig) :
    connectionConfig.fromJSON c.toJSON = c := by
  cases c
  simp [connectionConfig.fromJSON, connectionConfig.toJSON, List.lookup]

/-- C3: with verification disabled and a storage backend whose Put succeeds,
`pathConnectionUpdate` returns no Go error, and returns an error response if
and only if one of `connection_uri`, `username`, `password` is empty; the
message then names the first empty one, in that order; with none empty the
response is nil. -/
theorem pathConnectionUpdate_required_parameters (api : RabbitHole) (b : backend)
    (req : Request) (data : FieldData)
    (hverify : data.GetVerifyConnection = false)
    (hput : req.Storage.putErr = none) :
    (pathConnectionUpdate api b req data).err = none ∧
    (IsError (pathConnectionUpdate api b req data).resp = true ↔
      (data.GetString "connection_uri" = "" ∨ data.GetString "username" = "" ∨
        data.GetString "password" = "")) ∧
    (data.GetString "connection_uri" = "" →
      (pathConnectionUpdate api b req data).resp =
        some (ErrorResponse "'connection_uri' is a required parameter.")) ∧
    (data.GetString "connection_uri" ≠ "" → data.GetString "username" = "" →
      (pathConnectionUpdate api b req data).resp =
        some (ErrorResponse "'username' is a required parameter.")) ∧
    (data.GetString "connection_uri" ≠ "" → data.GetString "username" ≠ "" →
      data.GetString "password" = "" →
      (pathConnectionUpdate api b req data).resp =
        some (ErrorResponse "'password' is a required parameter.")) ∧
    (data.GetString "connection_uri" ≠ "" → data.GetString "username" ≠ "" →
      data.GetString "password" ≠ "" →
      (pathConnectionUpdate api b req data).resp = none) := by
  by_cases h1 : data.GetString "connection_uri" = ""
  · simp [pathConnectionUpdate, h1, IsError, ErrorResponse, List.lookup]
  · by_cases h2 : data.GetString "username" = ""
    · simp [pathConnectionUpdate, h1, h2, IsError, ErrorResponse, List.lookup]
    · by_cases h3 : data.GetString "password" = ""
      · simp [pathConnectionUpdate, h1, h2, h3, IsError, ErrorResponse, List.lookup]
      · simp [pathConnectionUpdate, h1, h2, h3, hverify, StorageEntryJSON, Storage.Put,
          hput, IsError]

/-- C3 at a request without a user name, against an empty store. -/
theorem pathConnectionUpdate_required_parameters_witness :
    (FieldData.mk (some "http://localhost:15672") none (some "secret")
        (some false)).GetVerifyConnection = false ∧
    (Request.mk ⟨[], none⟩).Storage.putErr = none ∧
    (pathConnectionUpdate ⟨fun u n p => .ok ⟨u, n, p⟩, fun _ => .ok []⟩ ⟨none⟩
        ⟨⟨[], none⟩⟩
        ⟨some "http://localhost:15672", none, some "secret", some false⟩).resp =
      some (ErrorResponse "'username' is a required parameter.") :=
  ⟨rfl, rfl,
    (pathConnectionUpdate_required_parameters ⟨fun u n p => .ok ⟨u, n, p⟩, fun _ => .ok []⟩
      ⟨none⟩ ⟨⟨[], none⟩⟩ ⟨some "http://localhost:15672", none, some "secret", some false⟩
      rfl rfl).2.2.2.1 (by decide) (by decide)⟩

/-- C4: for a request with all three parameters non-empty and verification
enabled, a failure to create the management client or to list users makes
`pathConnectionUpdate` return an error response, with no Go error, the storage
untouched and no Put attempted; when both calls succeed the handler goes on to
Put the configuration entry, and the outcome is that of the Put. -/
theorem pathConnectionUpdate_verification (api : RabbitHole) (b : backend)
    (req : Request) (data : FieldData)
    (huri : data.GetString "connection_uri" ≠ "")
    (huser : data.GetString "username" ≠ "")
    (hpass : data.GetString "password" ≠ "")
    (hverify : data.GetVerifyConnection = true) :
    (((∃ e, api.NewClient (data.GetString "connection_uri") (data.GetString "username")
          (data.GetString "password") = .error e) ∨
      (∃ c e, api.NewClient (data.GetString "connection_uri") (data.GetString "username")
          (data.GetString "password") = .ok c ∧ api.ListUsers c = .error e)) →
      IsError (pathConnectionUpdate api b req data).resp = true ∧
      (pathConnectionUpdate api b req data).err = none ∧
      (pathConnectionUpdate api b req data).storage = req.Storage ∧
      (pathConnectionUpdate api b req data).backend = b ∧
      ∀ e, Call.Put e ∉ (pathConnectionUpdate api b req data).calls) ∧
    (∀ c us, api.NewClient (data.GetString "connection_uri") (data.GetString "username")
          (data.GetString "password") = .ok c → api.ListUsers c = .ok us →
      Call.Put ⟨"config/connection",
          (connectionConfig.mk (data.GetString "connection_uri") ""
            (data.GetString "username") (data.GetString "password")).toJSON⟩
        ∈ (pathConnectionUpdate api b req data).calls ∧
      (∀ s, req.Storage.Put ⟨"config/connection",
          (connectionConfig.mk (data.GetString "connection_uri") ""
            (data.GetString "username") (data.GetString "password")).toJSON⟩ = .ok s →
        (pathConnectionUpdate api b req data).resp = none ∧
        (pathConnectionUpdate api b req data).err = none ∧
        (pathConnectionUpdate api b req data).storage = s) ∧
      (∀ e, req.Storage.Put ⟨"config/connection",
          (connectionConfig.mk (data.GetString "connection_uri") ""
            (data.GetString "username") (data.GetString "password")).toJSON⟩ = .error e →
        (pathConnectionUpdate api b req data).resp = none ∧
        (pathConnectionUpdate api b req data).err = some e ∧
        (pathConnectionUpdate api b req data).storage = req.Storage)) := by
  refine ⟨?_, ?_⟩
  · rintro (⟨e, he⟩ | ⟨c, e, hc, he⟩)
    · simp [pathConnectionUpdate, huri, huser, hpass, hverify, he, IsError, ErrorResponse,
        List.lookup]
    · simp [pathConnectionUpdate, huri, huser, hpass, hverify, hc, he, IsError,
        ErrorResponse, List.lookup]
  · intro c us hc hus
    refine ⟨?_, ?_, ?_⟩
    · cases hp : req.Storage.Put ⟨"config/connection",
          (connectionConfig.mk (data.GetString "connection_uri") ""
            (data.GetString "username") (data.GetString "password")).toJSON⟩ <;>
        simp [pathConnectionUpdate, huri, huser, hpass, hverify, hc, hus,
          StorageEntryJSON, hp]
    · intro s hp
      simp [pathConnectionUpdate, huri, huser, hpass, hverify, hc, hus,
        StorageEntryJSON, hp]
    · intro e hp
      simp [pathConnectionUpdate, huri, huser, hpass, hverify, hc, hus,
        StorageEntryJSON, hp]

/-- C5: with verification disabled the handler makes no `NewClient` and no
`ListUsers` call, and its whole outcome (response, error, storage, backend
state, calls) is the same whatever the management API would answer. -/
theorem pathConnectionUpdate_no_verification (api₁ api₂ : RabbitHole) (b : backend)
    (req : Request) (data : FieldData)
    (hverify : data.GetVerifyConnection = false) :
    (∀ call ∈ (pathConnectionUpdate api₁ b req data).calls,
      (∀ u n p, call ≠ Call.NewClient u n p) ∧ (∀ c, call ≠ Call.ListUsers c)) ∧
    pathConnectionUpdate api₁ b req data = pathConnectionUpdate api₂ b req data := by
  by_cases h1 : data.GetString "connection_uri" = ""
  · simp [pathConnectionUpdate, h1]
  · by_cases h2 : data.GetString "username" = ""
    · simp [pathConnectionUpdate, h1, h2]
    · by_cases h3 : data.GetString "password" = ""
      · simp [pathConnectionUpdate, h1, h2, h3]
      · cases hp : req.Storage.Put ⟨"config/connection",
            (connectionConfig.mk (data.GetString "connection_uri") ""
              (data.GetString "username") (data.GetString "password")).toJSON⟩ <;>
          simp [pathConnectionUpdate, h1, h2, h3, hverify, StorageEntryJSON, hp]

/-- C4 at a request whose management URI cannot be reached: the handler
answers with an error response and leaves the store as it was. -/
theorem pathConnectionUpdate_verification_witness :
    (FieldData.mk (some "http://localhost:15672") (some "admin") (some "secret")
        none).GetVerifyConnection = true ∧
    IsError (pathConnectionUpdate ⟨fun _ _ _ => .error "connection refused", fun _ => .ok []⟩
        ⟨none⟩ ⟨⟨[], none⟩⟩
        ⟨some "http://localhost:15672", some "admin", some "secret", none⟩).resp = true ∧
    (pathConnectionUpdate ⟨fun _ _ _ => .error "connection refused", fun _ => .ok []⟩
        ⟨none⟩ ⟨⟨[], none⟩⟩
        ⟨some "http://localhost:15672", some "admin", some "secret", none⟩).storage =
      ⟨[], none⟩ :=
  have h := (pathConnectionUpdate_verification
      ⟨fun _ _ _ => .error "connection refused", fun _ => .ok []⟩ ⟨none⟩ ⟨⟨[], none⟩⟩
      ⟨some "http://localhost:15672", some "admin", some "secret", none⟩
      (by decide) (by decide) (by decide) rfl).1 (Or.inl ⟨"connection refused", rfl⟩)
  ⟨rfl, h.1, h.2.2.1⟩

/-- C5 at a request with verification switched off, run against a management
API that refuses every client and against one that accepts every client: the
two outcomes coincide. -/
theorem pathConnectionUpdate_no_verification_witness :
    (FieldData.mk (some "http://localhost:15672") (some "admin") (some "secret")
        (some false)).GetVerifyConnection = false ∧
    pathConnectionUpdate ⟨fun _ _ _ => .error "connection refused", fun _ => .error "denied"⟩
        ⟨none⟩ ⟨⟨[], none⟩⟩
        ⟨some "http://localhost:15672", some "admin", some "secret", some false⟩ =
      pathConnectionUpdate ⟨fun u n p => .ok ⟨u, n, p⟩, fun _ => .ok ["guest"]⟩
        ⟨none⟩ ⟨⟨[], none⟩⟩
        ⟨some "http://localhost:15672", some "admin", some "secret", some false⟩ :=
  ⟨rfl,
    (pathConnectionUpdate_no_verification
      ⟨fun _ _ _ => .error "connection refused", fun _ => .error "denied"⟩
      ⟨fun u n p => .ok ⟨u, n, p⟩, fun _ => .ok ["guest"]⟩ ⟨none⟩ ⟨⟨[], none⟩⟩
      ⟨some "http://localhost:15672", some "admin", some "secret", some false⟩ rfl).2⟩

/-- After a successful Put the entry is what Get returns for its key. -/
theorem Storage_Get_Put (s s' : Storage) (e : StorageEntry) (h : s.Put e = .ok s') :
    s'.Get e.Key = some e := by
  unfold Storage.Put at h
  cases hp : s.putErr with
  | some err => simp [hp] at h
  | none =>
    simp only [hp, Except.ok.injEq] at h
    subst h
    simp [Storage.Get, List.find?]

/-- After a successful Put exactly one stored entry carries the entry's key. -/
theorem Storage_Put_unique (s s' : Storage) (e : StorageEntry) (h : s.Put e = .ok s') :
    s'.entries.filter (fun x => x.Key == e.Key) = [e] := by
  unfold Storage.Put at h
  cases hp : s.putErr with
  | some err => simp [hp] at h
  | none =>
    simp only [hp, Except.ok.injEq] at h
    subst h
    simp [List.filter_cons, List.filter_filter]

/-- A successful Put leaves what Get returns for every other key unchanged. -/
theorem Storage_Get_Put_other (s s' : Storage) (e : StorageEntry) (k : String)
    (h : s.Put e = .ok s') (hk : k ≠ e.Key) : s'.Get k = s.Get k := by
  unfold Storage.Put at h
  cases hp : s.putErr with
  | some err => simp [hp] at h
  | none =>
    simp only [hp, Except.ok.injEq] at h
    subst h
    have hb : (e.Key == k) = false := by
      simp only [beq_eq_false_iff_ne, ne_eq]
      exact fun h => hk h.symm
    simp only [Storage.Get, List.find?_cons, hb]
    induction s.entries with
    | nil => rfl
    | cons x xs ih =>
      by_cases hxk : x.Key = k
      · have hx : (x.Key != e.Key) = true := by
          simp only [bne_iff_ne, ne_eq, hxk]
          exact hk
        have hxb : (x.Key == k) = true := by simp [hxk]
        simp only [List.filter_cons, hx, if_true, List.find?_cons, hxb]
      · have hxb : (x.Key == k) = false := by simp [hxk]
        by_cases hx : (x.Key != e.Key) = true
        · simp only [List.filter_cons, hx, if_true, List.find?_cons, hxb, ih]
        · rw [Bool.not_eq_true] at hx
          simp only [List.filter_cons, hx, Bool.false_eq_true, if_false, List.find?_cons,
            hxb, ih]

/-- C6: for a request that passes validation (and verification, when enabled)
on a storage whose Put succeeds, `pathConnectionUpdate` returns `(nil, nil)`
and the storage then holds, under `config/connection`, an entry that decodes
to a `connectionConfig` with exactly the request's `connection_uri`,
`username` and `password`; it is the only entry under that key, whatever was
stored there before, and the other keys are unchanged. -/
theorem pathConnectionUpdate_stores (api : RabbitHole) (b : backend)
    (req : Request) (data : FieldData)
    (huri : data.GetString "connection_uri" ≠ "")
    (huser : data.GetString "username" ≠ "")
    (hpass : data.GetString "password" ≠ "")
    (hverify : data.GetVerifyConnection = true →
      ∃ c us, api.NewClient (data.GetString "connection_uri") (data.GetString "username")
          (data.GetString "password") = .ok c ∧ api.ListUsers c = .ok us)
    (hput : req.Storage.putErr = none) :
    (pathConnectionUpdate api b req data).resp = none ∧
    (pathConnectionUpdate api b req data).err = none ∧
    (∃ e, (pathConnectionUpdate api b req data).storage.Get "config/connection" = some e ∧
      (connectionConfig.fromJSON e.Value).URI = data.GetString "connection_uri" ∧
      (connectionConfig.fromJSON e.Value).Username = data.GetString "username" ∧
      (connectionConfig.fromJSON e.Value).Password = data.GetString "password" ∧
      (pathConnectionUpdate api b req data).storage.entries.filter
        (fun x => x.Key == "config/connection") = [e]) ∧
    (∀ k, k ≠ "config/connection" →
      (pathConnectionUpdate api b req data).storage.Get k = req.Storage.Get k) := by
  obtain ⟨s, hs⟩ : ∃ s, req.Storage.Put ⟨"config/connection",
      (connectionConfig.mk (data.GetString "connection_uri") ""
        (data.GetString "username") (data.GetString "password")).toJSON⟩ = .ok s := by
    simp [Storage.Put, hput]
  have hout : (pathConnectionUpdate api b req data).resp = none ∧
      (pathConnectionUpdate api b req data).err = none ∧
      (pathConnectionUpdate api b req data).storage = s := by
    cases hv : data.GetVerifyConnection with
    | false =>
      simp [pathConnectionUpdate, huri, huser, hpass, hv, StorageEntryJSON, hs]
    | true =>
      obtain ⟨c, us, hc, hus⟩ := hverify hv
      simp [pathConnectionUpdate, huri, huser, hpass, hv, hc, hus, StorageEntryJSON, hs]
  obtain ⟨hr, he, hst⟩ := hout
  refine ⟨hr, he, ⟨⟨"config/connection",
      (connectionConfig.mk (data.GetString "connection_uri") ""
        (data.GetString "username") (data.GetString "password")).toJSON⟩, ?_, ?_, ?_, ?_, ?_⟩, ?_⟩
  · rw [hst]; exact Storage_Get_Put _ _ _ hs
  · rw [fromJSON_toJSON]
  · rw [fromJSON_toJSON]
  · rw [fromJSON_toJSON]
  · rw [hst]; exact Storage_Put_unique _ _ _ hs
  · intro k hk
    rw [hst]; exact Storage_Get_Put_other _ _ _ k hs hk

/-- C6 at a verified request, on a store that already holds a connection
configuration and one other entry. -/
theorem pathConnectionUpdate_stores_witness :
    (pathConnectionUpdate ⟨fun u n p => .ok ⟨u, n, p⟩, fun _ => .ok ["guest"]⟩ ⟨none⟩
        ⟨⟨[⟨"config/connection", [("connection_uri", "http://old:15672")]⟩,
            ⟨"config/lease", [("ttl", "1h")]⟩], none⟩⟩
        ⟨some "http://localhost:15672", some "admin", some "secret", none⟩).resp = none ∧
    (pathConnectionUpdate ⟨fun u n p => .ok ⟨u, n, p⟩, fun _ => .ok ["guest"]⟩ ⟨none⟩
        ⟨⟨[⟨"config/connection", [("connection_uri", "http://old:15672")]⟩,
            ⟨"config/lease", [("ttl", "1h")]⟩], none⟩⟩
        ⟨some "http://localhost:15672", some "admin", some "secret", none⟩).err = none :=
  have h := pathConnectionUpdate_stores
      ⟨fun u n p => .ok ⟨u, n, p⟩, fun _ => .ok ["guest"]⟩ ⟨none⟩
      ⟨⟨[⟨"config/connection", [("connection_uri", "http://old:15672")]⟩,
          ⟨"config/lease", [("ttl", "1h")]⟩], none⟩⟩
      ⟨some "http://localhost:15672", some "admin", some "secret", none⟩
      (by decide) (by decide) (by decide) (fun _ => ⟨_, _, rfl, rfl⟩) rfl
  ⟨h.1, h.2.1⟩

end rabbitmq

/-! ## Theorems: the GitHub backend -/

namespace github

/-- C8: the check built by `testLoginWrite` with `expectFail = true` and
expected TTL 0 returns nil on a successful login response whose TTL is 0,
although that response is not an error. -/
theorem testLoginWriteCheck_accepts_success :
    (testLoginWrite [("token", "t")] 0 true).Check.map
        (fun check => check (some { Data := [], Auth := some ⟨⟨0, true⟩, ["root"]⟩ })) =
      some CheckResult.nil ∧
    IsError (some { Data := [], Auth := some ⟨⟨0, true⟩, ["root"]⟩ }) = false := by
  decide

/-- Every failure of `resolveTTL` is a `ValidationError`. -/
theorem resolveTTL_error_kind (parse : String → Option Duration) (field : String)
    (raw : Option String) (d : Duration) (e : Error)
    (h : resolveTTL parse field raw d = .error e) : e.kind = ErrorKind.ValidationError := by
  unfold resolveTTL at h
  split at h
  · cases h
  · split at h
    · cases h
    · split at h
      · cases h; rfl
      · cases h

/-- A supplied, non-empty value that parses resolves to its parsed duration. -/
theorem resolveTTL_supplied (parse : String → Option Duration) (field s : String)
    (d sysv : Duration) (hs : s ≠ "") (hp : parse s = some d) :
    resolveTTL parse field (some s) sysv = .ok d := by
  simp [resolveTTL, hs, hp]

/-- C2: a configuration write whose `max_ttl` is greater than the host's
system-wide maximum lease TTL fails with a `ValidationError`, whatever the
other arguments, `ttl` included. -/
theorem WriteConfig_max_ttl_above_ceiling (parse : String → Option Duration)
    (sys : SystemView) (store : ConfigStore) (organization : String)
    (baseURL ttl : Option String) (maxTTL : String) (m : Duration)
    (hsupplied : maxTTL ≠ "") (hparse : parse maxTTL = some m)
    (habove : m > sys.MaxLeaseTTLVal) :
    ∃ msg, WriteConfig parse sys store organization baseURL ttl (some maxTTL) =
      .error ⟨ErrorKind.ValidationError, msg⟩ := by
  unfold WriteConfig
  split
  · exact ⟨_, rfl⟩
  · cases ht : resolveTTL parse "ttl" ttl sys.DefaultLeaseTTLVal with
    | error e =>
      have hk := resolveTTL_error_kind _ _ _ _ _ ht
      cases e with
      | mk kind message =>
        simp only at hk
        subst hk
        exact ⟨message, rfl⟩
    | ok t =>
      simp only [resolveTTL_supplied parse "max_ttl" maxTTL m _ hsupplied hparse]
      by_cases hgt : t > sys.MaxLeaseTTLVal
      · rw [if_pos hgt]
        exact ⟨_, rfl⟩
      · rw [if_neg hgt, if_pos habove]
        exact ⟨_, rfl⟩

/-- C2 on the host of `TestBackend_Config` (maximum 48h), at the test's third
configuration, `ttl = 50h` and `max_ttl = 50h`. -/
theorem WriteConfig_max_ttl_above_ceiling_witness :
    ("50h" : String) ≠ "" ∧ ParseDuration "50h" = some (50 * Hour) ∧
    50 * Hour > testSystemView.MaxLeaseTTLVal ∧
    ∃ msg, WriteConfig ParseDuration testSystemView none "acme" none (some "50h")
      (some "50h") = .error ⟨ErrorKind.ValidationError, msg⟩ :=
  ⟨by decide, by decide, by decide,
    WriteConfig_max_ttl_above_ceiling ParseDuration testSystemView none "acme" none
      (some "50h") "50h" (50 * Hour) (by decide) (by decide) (by decide)⟩

/-- The negotiated TTL of a configuration whose `defaultTTL` is set (non-zero)
is the smaller of `defaultTTL` and `maxTTL`. -/
theorem Negotiate_set (sys : SystemView) (c : Configuration) (h : c.defaultTTL ≠ 0) :
    Negotiate sys c = min c.defaultTTL c.maxTTL := by
  unfold Negotiate
  rw [if_neg h]
  by_cases hle : c.defaultTTL ≤ c.maxTTL
  · rw [min_eq_left hle, if_neg (not_lt.mpr hle)]
  · rw [min_eq_right (le_of_lt (not_le.mp hle)), if_pos (not_le.mp hle)]

/-- The negotiated TTL of a configuration whose `defaultTTL` is zero/unset is
the host's system-wide default lease TTL. -/
theorem Negotiate_unset (sys : SystemView) (c : Configuration) (h : c.defaultTTL = 0) :
    Negotiate sys c = sys.DefaultLeaseTTLVal := by
  unfold Negotiate
  rw [if_pos h]

/-- A successful login issues the TTL negotiated from the stored
configuration. -/
theorem Login_ttl (sys : SystemView) (idp : IdentityProvider) (lower : Char → Char)
    (c : Configuration) (maps : MappingStore) (token : String) (r : AuthenticationResult)
    (h : Login sys idp lower (some c) maps token = .ok r) : r.ttl = Negotiate sys c := by
  unfold Login ReadConfig at h
  simp only at h
  split at h
  · cases h
  · split at h
    · cases h
    · split at h
      · cases h
      · split at h
        · cases h
        · split at h
          · cases h
          · cases h; rfl

/-- A successful configuration write stores the `ttl` as supplied and the
resolved `max_ttl`. -/
theorem WriteConfig_ok (parse : String → Option Duration) (sys : SystemView)
    (store store' : ConfigStore) (organization : String) (baseURL ttl maxTTL : Option String)
    (h : WriteConfig parse sys store organization baseURL ttl maxTTL = .ok store') :
    ∃ c t, store' = some c ∧
      resolveTTL parse "ttl" ttl sys.DefaultLeaseTTLVal = .ok t ∧
      c.defaultTTL = persistedTTL ttl t ∧
      resolveTTL parse "max_ttl" maxTTL sys.MaxLeaseTTLVal = .ok c.maxTTL := by
  unfold WriteConfig at h
  split at h
  · cases h
  · cases ht : resolveTTL parse "ttl" ttl sys.DefaultLeaseTTLVal with
    | error e => simp [ht] at h
    | ok t =>
      cases hm : resolveTTL parse "max_ttl" maxTTL sys.MaxLeaseTTLVal with
      | error e => simp [ht, hm] at h
      | ok m =>
        simp only [ht, hm] at h
        split at h
        · cases h
        · split at h
          · cases h
          · cases h
            exact ⟨_, t, rfl, rfl, rfl, rfl⟩

/-- C1, the claim as stated, fails: on the host of `TestBackend_Config`
(default 24h, maximum 48h) the configuration `ttl = 2h`, `max_ttl = 1h` is
accepted and stored, its `ttl` is set and non-zero, and a successful login
is issued a TTL of one hour, not the configured two hours. -/
theorem Login_ttl_not_configured_ttl :
    WriteConfig ParseDuration testSystemView none "acme" none (some "2h") (some "1h") =
      .ok (some ⟨"acme", none, 2 * Hour, 1 * Hour⟩) ∧
    ParseDuration "2h" = some (2 * Hour) ∧ 2 * Hour ≠ 0 ∧
    Login testSystemView sampleProvider toLowerRune (some ⟨"acme", none, 2 * Hour, 1 * Hour⟩)
      [("default", ["root"])] "token" = .ok ⟨"alice", ["root"], 1 * Hour⟩ ∧
    (1 * Hour : Duration) ≠ 2 * Hour :=
  ⟨rfl, rfl, by decide, rfl, by decide⟩

/-- C1, amended: after a successful configuration write, every successful
login is issued the configured `ttl` when it is set (non-zero) and does not
exceed the configuration's `max_ttl`, and `max_ttl` when the configured `ttl`
exceeds it; it is issued the host's system-wide default lease TTL when `ttl`
is unset or empty. -/
theorem Login_ttl_negotiated (parse : String → Option Duration) (sys : SystemView)
    (idp : IdentityProvider) (lower : Char → Char) (store store' : ConfigStore)
    (maps : MappingStore) (organization : String) (baseURL ttl maxTTL : Option String)
    (token : String) (r : AuthenticationResult)
    (hwrite : WriteConfig parse sys store organization baseURL ttl maxTTL = .ok store')
    (hlogin : Login sys idp lower store' maps token = .ok r) :
    (∃ c, store' = some c ∧
      resolveTTL parse "max_ttl" maxTTL sys.MaxLeaseTTLVal = .ok c.maxTTL ∧
      ∀ s d, ttl = some s → s ≠ "" → parse s = some d → d ≠ 0 →
        (d ≤ c.maxTTL → r.ttl = d) ∧ (c.maxTTL < d → r.ttl = c.maxTTL)) ∧
    ((ttl = none ∨ ttl = some "") → r.ttl = sys.DefaultLeaseTTLVal) := by
  obtain ⟨c, t, hc, ht, hdef, hm⟩ := WriteConfig_ok _ _ _ _ _ _ _ _ hwrite
  subst hc
  have hr := Login_ttl _ _ _ _ _ _ _ hlogin
  refine ⟨⟨c, rfl, hm, ?_⟩, ?_⟩
  · intro s d hs hne hp hd
    rw [hs, resolveTTL_supplied parse "ttl" s d _ hne hp] at ht
    have htd : d = t := by cases ht; rfl
    have hdc : c.defaultTTL = d := by
      rw [hdef, hs, htd]
      simp [persistedTTL, hne]
    have hneg : Negotiate sys c = min d c.maxTTL := by
      rw [Negotiate_set sys c (by rw [hdc]; exact hd), hdc]
    rw [hr, hneg]
    exact ⟨fun hle => min_eq_left hle, fun hlt => min_eq_right (le_of_lt hlt)⟩
  · intro hunset
    have hdc : c.defaultTTL = 0 := by
      rw [hdef]
      rcases hunset with h | h <;> rw [h] <;> simp [persistedTTL]
    rw [hr, Negotiate_unset sys c hdc]

/-- C1, amended, on the host of `TestBackend_Config` at the test's second
configuration, `ttl = 1h` and `max_ttl = 2h`: the login TTL is 3600 seconds. -/
theorem Login_ttl_negotiated_witness :
    WriteConfig ParseDuration testSystemView none "acme" none (some "1h") (some "2h") =
      .ok (some ⟨"acme", none, 1 * Hour, 2 * Hour⟩) ∧
    Login testSystemView sampleProvider toLowerRune (some ⟨"acme", none, 1 * Hour, 2 * Hour⟩)
      [("default", ["root"])] "token" = .ok ⟨"alice", ["root"], 1 * Hour⟩ ∧
    (AuthenticationResult.mk "alice" ["root"] (1 * Hour)).ttl_seconds = 3600 ∧
    ((∃ c, some (Configuration.mk "acme" none (1 * Hour) (2 * Hour)) = some c ∧
      resolveTTL ParseDuration "max_ttl" (some "2h") testSystemView.MaxLeaseTTLVal =
        .ok c.maxTTL ∧
      ∀ s d, some "1h" = some s → s ≠ "" → ParseDuration s = some d → d ≠ 0 →
        (d ≤ c.maxTTL → (AuthenticationResult.mk "alice" ["root"] (1 * Hour)).ttl = d) ∧
        (c.maxTTL < d →
          (AuthenticationResult.mk "alice" ["root"] (1 * Hour)).ttl = c.maxTTL)) ∧
    (((some "1h" : Option String) = none ∨ some "1h" = some "") →
      (AuthenticationResult.mk "alice" ["root"] (1 * Hour)).ttl =
        testSystemView.DefaultLeaseTTLVal)) :=
  ⟨rfl, rfl, by decide,
    Login_ttl_negotiated ParseDuration testSystemView sampleProvider toLowerRune none _
      [("default", ["root"])] "acme" none (some "1h") (some "2h") "token" _
      (by rfl) (by rfl)⟩

/-- The first test configuration, `ttl` and `max_ttl` both empty, on the host
of `TestBackend_Config`: the login TTL is the system default of 24 hours; it
is the system default too when only `ttl` is empty and `max_ttl` is one
hour. -/
theorem Login_ttl_unset_example :
    WriteConfig ParseDuration testSystemView none "acme" none (some "") (some "") =
      .ok (some ⟨"acme", none, 0, 48 * Hour⟩) ∧
    Login testSystemView sampleProvider toLowerRune (some ⟨"acme", none, 0, 48 * Hour⟩)
      [("default", ["root"])] "token" = .ok ⟨"alice", ["root"], 24 * Hour⟩ ∧
    WriteConfig ParseDuration testSystemView none "acme" none (some "") (some "1h") =
      .ok (some ⟨"acme", none, 0, 1 * Hour⟩) ∧
    Login testSystemView sampleProvider toLowerRune (some ⟨"acme", none, 0, 1 * Hour⟩)
      [("default", ["root"])] "token" = .ok ⟨"alice", ["root"], 24 * Hour⟩ :=
  ⟨rfl, rfl, rfl, rfl⟩

/-- Character lists related position by position by `sameLetter` have the
same lower-case form. -/
theorem map_lower_eq_of_sameLetter (lower : Char → Char) (l₁ l₂ : List Char)
    (h : List.Forall₂ (sameLetter lower) l₁ l₂) : l₁.map lower = l₂.map lower := by
  induction h with
  | nil => rfl
  | cons hab _ ih =>
    unfold sameLetter at hab
    simp only [List.map_cons, hab, ih]

/-- For an idempotent lower-case mapping, a character is the same up to
letter case as itself, as its lower-case form, and as any character of which
it is the lower-case form. -/
theorem sameLetter_of_lower (lower : Char → Char) (hidem : ∀ c, lower (lower c) = lower c)
    (a b : Char) (h : b = a ∨ b = lower a ∨ a = lower b) : sameLetter lower a b := by
  unfold sameLetter
  rcases h with h | h | h
  · rw [h]
  · rw [h, hidem]
  · rw [h, hidem]

/-- A code point below the surrogate range is the code point of its
character. -/
theorem toNat_ofNat_small (n : Nat) (h : n < 55296) : (Char.ofNat n).toNat = n := by
  have hv : n.isValidChar := Or.inl h
  simp [Char.ofNat, hv, Char.ofNatAux, Char.toNat, UInt32.toNat]

/-- The mapping `toLowerRune` leaves a character alone whose code point is in
none of its upper-case ranges. -/
theorem toLowerRune_of_not_upper (c : Char)
    (h : ¬ (65 ≤ c.toNat ∧ c.toNat ≤ 90) ∧ ¬ (192 ≤ c.toNat ∧ c.toNat ≤ 214) ∧
      ¬ (216 ≤ c.toNat ∧ c.toNat ≤ 222) ∧ ¬ (913 ≤ c.toNat ∧ c.toNat ≤ 929) ∧
      ¬ (931 ≤ c.toNat ∧ c.toNat ≤ 939) ∧ ¬ (1024 ≤ c.toNat ∧ c.toNat ≤ 1039) ∧
      ¬ (1040 ≤ c.toNat ∧ c.toNat ≤ 1071)) : toLowerRune c = c := by
  obtain ⟨h1, h2, h3, h4, h5, h6, h7⟩ := h
  unfold toLowerRune
  simp only [h1, h2, h3, h4, h5, h6, h7, if_false]

/-- The mapping `toLowerRune` is idempotent. -/
theorem toLowerRune_idem (c : Char) : toLowerRune (toLowerRune c) = toLowerRune c := by
  by_cases h1 : 65 ≤ c.toNat ∧ c.toNat ≤ 90
  · have hc : toLowerRune c = Char.ofNat (c.toNat + 32) := by
      unfold toLowerRune; simp only [h1, and_self, if_true]
    have hn : (toLowerRune c).toNat = c.toNat + 32 := by
      rw [hc]; exact toNat_ofNat_small _ (by omega)
    exact toLowerRune_of_not_upper _ (by omega)
  by_cases h2 : 192 ≤ c.toNat ∧ c.toNat ≤ 214
  · have hc : toLowerRune c = Char.ofNat (c.toNat + 32) := by
      unfold toLowerRune; simp only [h1, h2, and_self, if_true, if_false]
    have hn : (toLowerRune c).toNat = c.toNat + 32 := by
      rw [hc]; exact toNat_ofNat_small _ (by omega)
    exact toLowerRune_of_not_upper _ (by omega)
  by_cases h3 : 216 ≤ c.toNat ∧ c.toNat ≤ 222
  · have hc : toLowerRune c = Char.ofNat (c.toNat + 32) := by
      unfold toLowerRune; simp only [h1, h2, h3, and_self, if_true, if_false]
    have hn : (toLowerRune c).toNat = c.toNat + 32 := by
      rw [hc]; exact toNat_ofNat_small _ (by omega)
    exact toLowerRune_of_not_upper _ (by omega)
  by_cases h4 : 913 ≤ c.toNat ∧ c.toNat ≤ 929
  · have hc : toLowerRune c = Char.ofNat (c.toNat + 32) := by
      unfold toLowerRune; simp only [h1, h2, h3, h4, and_self, if_true, if_false]
    have hn : (toLowerRune c).toNat = c.toNat + 32 := by
      rw [hc]; exact toNat_ofNat_small _ (by omega)
    exact toLowerRune_of_not_upper _ (by omega)
  by_cases h5 : 931 ≤ c.toNat ∧ c.toNat ≤ 939
  · have hc : toLowerRune c = Char.ofNat (c.toNat + 32) := by
      unfold toLowerRune; simp only [h1, h2, h3, h4, h5, and_self, if_true, if_false]
    have hn : (toLowerRune c).toNat = c.toNat + 32 := by
      rw [hc]; exact toNat_ofNat_small _ (by omega)
    exact toLowerRune_of_not_upper _ (by omega)
  by_cases h6 : 1024 ≤ c.toNat ∧ c.toNat ≤ 1039
  · have hc : toLowerRune c = Char.ofNat (c.toNat + 80) := by
      unfold toLowerRune; simp only [h1, h2, h3, h4, h5, h6, and_self, if_true, if_false]
    have hn : (toLowerRune c).toNat = c.toNat + 80 := by
      rw [hc]; exact toNat_ofNat_small _ (by omega)
    exact toLowerRune_of_not_upper _ (by omega)
  by_cases h7 : 1040 ≤ c.toNat ∧ c.toNat ≤ 1071
  · have hc : toLowerRune c = Char.ofNat (c.toNat + 32) := by
      unfold toLowerRune; simp only [h1, h2, h3, h4, h5, h6, h7, and_self, if_true, if_false]
    have hn : (toLowerRune c).toNat = c.toNat + 32 := by
      rw [hc]; exact toNat_ofNat_small _ (by omega)
    exact toLowerRune_of_not_upper _ (by omega)
  · rw [toLowerRune_of_not_upper c ⟨h1, h2, h3, h4, h5, h6, h7⟩,
      toLowerRune_of_not_upper c ⟨h1, h2, h3, h4, h5, h6, h7⟩]

/-- Names that differ only in letter case normalise to the same key. -/
theorem lowerName_eq_of_differsOnlyInCase (lower : Char → Char) (s t : String)
    (h : differsOnlyInCase lower s t) : lowerName lower s = lowerName lower t := by
  unfold lowerName
  rw [map_lower_eq_of_sameLetter lower s.data t.data h]

/-- Folding `addPolicy` over a list yields the names of the list and of the
accumulator. -/
theorem mem_foldl_addPolicy (l acc : List String) (p : String) :
    p ∈ l.foldl addPolicy acc ↔ p ∈ acc ∨ p ∈ l := by
  induction l generalizing acc with
  | nil => simp
  | cons x xs ih =>
    rw [List.foldl_cons, ih]
    unfold addPolicy
    by_cases hx : x ∈ acc
    · simp only [hx, if_true, List.mem_cons]
      constructor
      · rintro (h | h)
        · exact Or.inl h
        · exact Or.inr (Or.inr h)
      · rintro (h | h | h)
        · exact Or.inl h
        · exact Or.inl (h ▸ hx)
        · exact Or.inr h
    · simp only [hx, if_false, List.mem_append, List.mem_singleton, List.mem_cons]
      tauto

/-- Right after a successful `WriteMapping(T, P)`, reading any spelling of `T`
returns the policy set of `P`. -/
theorem ReadMapping_WriteMapping (lower : Char → Char) (maps maps' : MappingStore)
    (T T' P : String) (hcase : differsOnlyInCase lower T T')
    (hw : WriteMapping lower maps T P = .ok maps') :
    ReadMapping lower maps' T' = some (parsePolicies P) := by
  unfold WriteMapping at hw
  simp only at hw
  split at hw
  · cases hw
  · cases hw
    unfold ReadMapping
    rw [← lowerName_eq_of_differsOnlyInCase lower T T' hcase]
    simp [List.lookup]

/-- The policies of a login are those resolved from the teams the identity
provider lists for the configured organisation. -/
theorem Login_policies (sys : SystemView) (idp : IdentityProvider) (lower : Char → Char)
    (c : Configuration) (maps : MappingStore) (token : String) (r : AuthenticationResult)
    (teams : List String)
    (hteams : idp.listTeams token c.organization = .ok teams)
    (h : Login sys idp lower (some c) maps token = .ok r) :
    r.policies = resolvePolicies lower maps teams := by
  unfold Login ReadConfig at h
  simp only at h
  split at h
  · cases h
  · split at h
    · cases h
    · split at h
      · cases h
      · rw [hteams] at h
        simp only at h
        split at h
        · cases h
        · cases h; rfl

/-- C7: after `WriteMapping(T, P)`, a successful login of a member of a team
whose name `T'` differs from `T` only in letter case returns every policy of
`P` among its policies, whatever the lower-case mapping of characters by
which team names are normalised. -/
theorem Login_mapping_case_insensitive (sys : SystemView) (idp : IdentityProvider)
    (lower : Char → Char) (c : Configuration) (maps maps' : MappingStore)
    (T T' P token : String) (teams : List String) (r : AuthenticationResult)
    (hcase : differsOnlyInCase lower T T')
    (hwrite : WriteMapping lower maps T P = .ok maps')
    (hteams : idp.listTeams token c.organization = .ok teams)
    (hmember : T' ∈ teams)
    (hlogin : Login sys idp lower (some c) maps' token = .ok r) :
    ∀ p ∈ parsePolicies P, p ∈ r.policies := by
  intro p hp
  rw [Login_policies sys idp lower c maps' token r teams hteams hlogin]
  unfold resolvePolicies
  rw [mem_foldl_addPolicy]
  right
  rw [List.mem_flatten]
  refine ⟨parsePolicies P, ?_, hp⟩
  rw [List.mem_map]
  refine ⟨T', List.mem_append_left _ hmember, ?_⟩
  rw [ReadMapping_WriteMapping lower maps maps' T T' P hcase hwrite]
  rfl

/-- C7 on the mappings of `TestBackend_basic`: with `default -> root` stored,
`oWnErs -> root` is written; the login of a member of team `owners` yields the
policy set `root`. -/
theorem Login_mapping_case_insensitive_witness :
    differsOnlyInCase toLowerRune "oWnErs" "owners" ∧
    WriteMapping toLowerRune [("default", ["root"])] "oWnErs" "root" =
      .ok [("owners", ["root"]), ("default", ["root"])] ∧
    Login testSystemView sampleProvider toLowerRune (some ⟨"acme", none, 0, 48 * Hour⟩)
      [("owners", ["root"]), ("default", ["root"])] "token" =
      .ok ⟨"alice", ["root"], 24 * Hour⟩ ∧
    ∀ p ∈ parsePolicies "root",
      p ∈ (AuthenticationResult.mk "alice" ["root"] (24 * Hour)).policies :=
  have hcase : differsOnlyInCase toLowerRune "oWnErs" "owners" :=
    List.Forall₂.cons rfl (List.Forall₂.cons rfl (List.Forall₂.cons rfl
      (List.Forall₂.cons rfl (List.Forall₂.cons rfl (List.Forall₂.cons rfl
        List.Forall₂.nil)))))
  ⟨hcase, by rfl, by rfl,
    Login_mapping_case_insensitive testSystemView sampleProvider toLowerRune
      ⟨"acme", none, 0, 48 * Hour⟩
      [("default", ["root"])] [("owners", ["root"]), ("default", ["root"])]
      "oWnErs" "owners" "root" "token" ["owners"] ⟨"alice", ["root"], 24 * Hour⟩
      hcase (by rfl) (by rfl) (by decide) (by rfl)⟩

/-- Case-insensitive lookup outside ASCII: a mapping written for `Équipe` is
read back under `équipe` and under `ÉQUIPE`, and one written for `Αθήνα`
under `αθήνα`. -/
theorem ReadMapping_non_ascii_example :
    (WriteMapping toLowerRune [] "Équipe" "root").map
        (fun maps =>
          (ReadMapping toLowerRune maps "équipe", ReadMapping toLowerRune maps "ÉQUIPE")) =
      .ok (some ["root"], some ["root"]) ∧
    (WriteMapping toLowerRune [] "Αθήνα" "dev").map
        (fun maps => ReadMapping toLowerRune maps "αθήνα") = .ok (some ["dev"]) :=
  ⟨by rfl, by rfl⟩

end github

end Vault
